import Mathlib

/-!
Verification of the invman Schema Evolution Engine, Typed Record Store and
Audit Trail, as a shallow embedding of the Rust sources
(`src/lib/common/args.rs`, `src/lib/utils.rs`, `src/database/sqlite/mod.rs`).

Machine integers: the Rust code uses `u32` for bounds and ids and `i64` for
parsed integers; all arithmetic on them in the embedded fragments stays far
from overflow, so they are modelled as `Nat` / `Int` (with an explicit i64
range check where `str::parse::<i64>` performs one).  Rust `String::len`
(UTF-8 byte length) is modelled by `strByteLen`.  The physical storage
engine (SQLite) is, per the specification, an external capability supplying
atomic transactions and auto-increment ids; it is modelled by a database
state record plus a transaction runner that discards all intermediate
effects when any statement of the transaction fails.
-/

/-- `ColumnType` from `src/lib/common/args.rs` (closed set of column types). -/
inductive ColumnType where
  | TEXT
  | VARCHAR
  | INT
  | REAL
  | BOOL
deriving DecidableEq, Repr

/-- `SchemaDeclaration` from `src/lib/common/args.rs`: one column's contract.
`u32` fields are modelled as `Nat`. -/
structure SchemaDeclaration where
  name : String
  display_name : String
  unique : Bool
  max_length : Nat
  min_length : Nat
  max : Nat
  min : Nat
  nullable : Bool
  column_type : ColumnType
  default : String
  hint : String
  layout : String
deriving DecidableEq, Repr

/-- `InventorySchemaAlterArgs` from `src/lib/common/args.rs`: the raw column
parameters handed to the validator. -/
structure InventorySchemaAlterArgs where
  name : String
  display_name : Option String
  unique : Bool
  max_length : Option Nat
  min_length : Option Nat
  max : Option Nat
  min : Option Nat
  nullable : Option Bool
  column_type : ColumnType
  default : Option String
  hint : Option String
  layout : Option String
deriving DecidableEq, Repr

/-- Rust `String::len`: the UTF-8 byte length of a string. -/
def strByteLen (s : String) : Nat :=
  (s.toList.map Char.utf8Size).sum

/-- Rust `char::to_ascii_lowercase`, applied characterwise. -/
def asciiLowerChar (c : Char) : Char :=
  if 'A' ≤ c ∧ c ≤ 'Z' then Char.ofNat (c.toNat + 32) else c

/-- Rust `str::to_ascii_lowercase`. -/
def asciiLower (s : String) : String :=
  ⟨s.toList.map asciiLowerChar⟩

/-- The display-name defaulting of `SchemaDeclaration::new`: dashes and
underscores become spaces, the first character is upper-cased, the rest are
ASCII lower-cased.  (Rust `char::to_uppercase` may map one exotic character
to several; `Char.toUpper` agrees with it on ASCII, which is all the
declared name alphabet `[a-z-_]` allows.) -/
def displayNameOf (name : String) : String :=
  let replaced := name.toList.map (fun c => if c = '-' ∨ c = '_' then ' ' else c)
  match replaced with
  | [] => ""
  | first :: rest => ⟨first.toUpper :: rest.map asciiLowerChar⟩

/-- The `SchemaDeclaration` record built by `SchemaDeclaration::new` before
any rule is checked (`unwrap_or` defaulting of every optional argument). -/
def declOf (args : InventorySchemaAlterArgs) : SchemaDeclaration :=
  { name := args.name
    display_name :=
      match args.display_name with
      | some n => n
      | none => displayNameOf args.name
    unique := args.unique
    max_length := args.max_length.getD 0
    min_length := args.min_length.getD 0
    max := args.max.getD 0
    min := args.min.getD 0
    nullable := args.nullable.getD false
    column_type := args.column_type
    default := args.default.getD "NULL"
    hint := args.hint.getD ""
    layout := args.layout.getD "" }

/-- `SchemaDeclaration::new` from `src/lib/common/args.rs`: the validator.
The two nested default-length `bail!`s of the source are flattened into two
guards that each carry the `default != "NULL"` condition of the enclosing
`if`. -/
def schemaDeclarationNew (args : InventorySchemaAlterArgs) :
    Except String SchemaDeclaration :=
  let decl := declOf args
  if decl.min_length > decl.max_length then
    Except.error "Schema min-length parameter cannot be larger than max-length!"
  else if decl.min > decl.max then
    Except.error "Schema min parameter cannot be larger than max!"
  else if decl.column_type = ColumnType.VARCHAR ∧ decl.max_length = 0 then
    Except.error "Schema cannot have column type varchar with max-length being 0!"
  else if decl.default ≠ "NULL" ∧ decl.max_length > 0 ∧
      strByteLen decl.default > decl.max_length then
    Except.error "Schema default value cannot be longer than max-length!"
  else if decl.default ≠ "NULL" ∧ decl.min_length > 0 ∧
      strByteLen decl.default < decl.min_length then
    Except.error "Schema default value cannot be shorter than min-length!"
  else
    Except.ok decl

/-- `KeyValueTypeEntry` (declared in the repository's `database` module and
used throughout `src/`): the typed (key, optional textual value, column
type) bridge between schema types and generic storage. -/
structure KeyValueTypeEntry where
  key : String
  value : Option String
  column_type : ColumnType
deriving DecidableEq, Repr

/-- `KeyValueCollection`: a list of typed entries (one record snapshot or
one set of supplied fields). -/
structure KeyValueCollection where
  collection : List KeyValueTypeEntry
deriving DecidableEq, Repr

/-- Helper for Rust `str::split_once(c)`: split a character list at the
first occurrence of `c`; `acc` holds the already-scanned prefix reversed. -/
def splitListOnce (c : Char) : List Char → List Char → Option (List Char × List Char)
  | [], _ => none
  | x :: rest, acc =>
      if x = c then some (acc.reverse, rest) else splitListOnce c rest (x :: acc)

/-- Rust `self.split_once("=")` on a string (the schema `name=value`
notation). -/
def splitOnceEq (s : String) : Option (String × String) :=
  match splitListOnce '=' s.toList [] with
  | none => none
  | some (a, b) => some (⟨a⟩, ⟨b⟩)

/-- Rust `str::parse::<i64>`: optional sign, at least one ASCII digit, and
an i64 range check. -/
def parseI64 (s : String) : Option Int :=
  let (sign, digits) :=
    match s.toList with
    | '+' :: rest => ((1 : Int), rest)
    | '-' :: rest => ((-1 : Int), rest)
    | l => ((1 : Int), l)
  if digits = [] then none
  else if digits.all Char.isDigit then
    let n : Nat := digits.foldl (fun acc c => acc * 10 + (c.toNat - 48)) 0
    let v : Int := sign * n
    if -(2 ^ 63) ≤ v ∧ v ≤ 2 ^ 63 - 1 then some v else none
  else none

/-- Digit list to number, for the decimal parser. -/
def digitsToNat (l : List Char) : Nat :=
  l.foldl (fun acc c => acc * 10 + (c.toNat - 48)) 0

/-- Rust `str::parse::<f64>`, modelled exactly over rationals for plain
decimal literals (optional sign, digits, optional fractional part; no
exponent forms).  Only the `REAL` branch of the dead validator below uses
it and no theorem evaluates that branch. -/
def parseRealRat (s : String) : Option Rat :=
  let (sign, body) :=
    match s.toList with
    | '+' :: rest => ((1 : Rat), rest)
    | '-' :: rest => ((-1 : Rat), rest)
    | l => ((1 : Rat), l)
  match splitListOnce '.' body [] with
  | none =>
      if body ≠ [] ∧ body.all Char.isDigit then some (sign * digitsToNat body) else none
  | some (ip, fp) =>
      if (ip.all Char.isDigit ∧ fp.all Char.isDigit) ∧ ¬(ip = [] ∧ fp = []) then
        some (sign * ((digitsToNat ip : Rat) + (digitsToNat fp : Rat) / (10 : Rat) ^ fp.length))
      else none

/-- `InvManNotationHelper::to_typed_key_value_entry` from
`src/lib/common/args.rs`: parse one `name=value` argument against the
current schema.  It only resolves the name to a declaration and records the
declared column type; it performs no value validation.
(`KeyValueTypeEntry::new`, declared in the missing `database` module,
receives only the key, the value and the column type, so it can only be the
plain constructor.) -/
def toTypedKeyValueEntry (s : String) (declarations : List SchemaDeclaration) :
    Except String KeyValueTypeEntry :=
  match splitOnceEq s with
  | none => Except.error "Could not split parsed parameter"
  | some (k, v) =>
      match declarations.find? (fun e => e.name == k) with
      | some decl => Except.ok { key := k, value := some v, column_type := decl.column_type }
      | none => Except.error "Could not find parameter in table schema"

/-- `SchemaDeclarationVerify::check_against_declaration` from
`src/lib/utils.rs`: the value validator (bounds, lengths, boolean
literals).  Note: no code in the repository calls it. -/
def checkAgainstDeclaration (s : String) (declarations : List SchemaDeclaration) :
    Except String (String × String) :=
  match splitOnceEq s with
  | none => Except.error "Given string is not in valid schema notation"
  | some (name, value) =>
      match declarations.find? (fun e => e.name == name) with
      | none => Except.error "Field could not be found in schema declaration"
      | some schema =>
          match schema.column_type with
          | ColumnType.BOOL =>
              if asciiLower value = "true" then Except.ok (name, "true")
              else if asciiLower value = "false" then Except.ok (name, "false")
              else Except.error "Value not of boolean type"
          | ColumnType.VARCHAR | ColumnType.TEXT =>
              let value_len := strByteLen value
              if value_len < schema.min_length then
                Except.error "Field length is less than schema min length"
              else if value_len > schema.max_length then
                Except.error "Field length is more than schema max length"
              else Except.ok (name, "\"" ++ value ++ "\"")
          | ColumnType.INT =>
              match parseI64 value with
              | some n =>
                  if schema.min > 0 ∧ n < (schema.min : Int) then
                    Except.error "Field is smaller than schema min"
                  else if schema.max > 0 ∧ n > (schema.max : Int) then
                    Except.error "Field is larger than schema max"
                  else Except.ok (name, value)
              | none => Except.error "Field is not a valid integer type"
          | ColumnType.REAL =>
              match parseRealRat value with
              | some q =>
                  if q < (schema.min : Rat) then
                    Except.error "Field is smaller than schema min"
                  else if q > (schema.max : Rat) then
                    Except.error "Field is larger than schema max"
                  else Except.ok (name, value)
              | none => Except.error "Field is not a valid real type"

/-- `SchemaActionNo` (schema-ledger action kinds; declared in the missing
`database` module, listed in the spec as `action ∈ {Alter, Remove}`).  The
ledger stores its raw integer encoding, which no claim inspects, so the
variant itself is stored here. -/
inductive SchemaActionNo where
  | Alter
  | Remove
deriving DecidableEq, Repr

/-- `DBOpNo` (record-ledger action kinds, spec: `action ∈ {Add, Edit,
Delete}`). -/
inductive DBOpNo where
  | Add
  | Edit
  | Delete
deriving DecidableEq, Repr

/-- `EventActionNo` (event-ledger action kinds used by the record
operations). -/
inductive EventActionNo where
  | InventoryAdd
  | InventoryEdit
  | InventoryRemove
deriving DecidableEq, Repr

/-- One row of the `invman_inventory` record table: surrogate id, the three
automatic timestamp columns, and one value per declared column (keyed by
column name, in declared order). -/
structure InventoryRow where
  id : Nat
  created_at : String
  updated_at : String
  deleted_at : Option String
  fields : List (String × Option String)
deriving DecidableEq, Repr

/-- One row of the `invman_inventory_schema_tx` schema ledger. -/
structure SchemaTxRow where
  id : Nat
  dispatcher : Nat
  action_no : SchemaActionNo
  from_val : String
  to_val : String
deriving DecidableEq, Repr

/-- One row of the `invman_inventory_tx` record ledger. -/
structure InventoryTxRow where
  id : Nat
  dispatcher : Nat
  schema_id : Nat
  inventory_id : Nat
  action_no : DBOpNo
  from_val : Option String
  to_val : String
deriving DecidableEq, Repr

/-- One row of the `invman_event_tx` event ledger. -/
structure EventTxRow where
  id : Nat
  action_no : EventActionNo
  dispatcher : Nat
  target : Nat
deriving DecidableEq, Repr

/-- The persisted SQLite state the embedded operations act on: the record
table, the three append-only ledgers (with their auto-increment counters)
and the schema registry persisted in `invman_config` under
`inventory_schema_declaration` (kept in deserialized form). -/
structure DBState where
  inventory : List InventoryRow
  inventory_next_id : Nat
  schema_tx : List SchemaTxRow
  schema_tx_next_id : Nat
  inventory_tx : List InventoryTxRow
  inventory_tx_next_id : Nat
  event_tx : List EventTxRow
  event_tx_next_id : Nat
  config_schema : List SchemaDeclaration
deriving DecidableEq, Repr

/-- Failures surfaced by the embedded storage operations. -/
inductive DBError where
  | storage
  | notFound
  | queryReturnedNoRows
  | nullId
  | declNotFound
deriving DecidableEq, Repr

/-- A storage transaction (`self.db.transaction()` … `tx.commit()`): the
body computes the post-commit state; if any statement fails the
transaction is rolled back and the pre-transaction state is observable
unchanged.  Atomic rollback is the storage-engine capability the spec
assumes (§1, §5). -/
def runTx (body : DBState → Except DBError DBState) (s : DBState) :
    DBState × Option DBError :=
  match body s with
  | Except.ok s2 => (s2, none)
  | Except.error e => (s, some e)

/-- Rust `Vec::iter().position(p)` for the name predicates used by
`SchemaCollection::contains` (which compares with `is_equal`, i.e. by
`name` only, `src/lib/common/args.rs`) and by `schema_remove`. -/
def positionByName (l : List SchemaDeclaration) (nm : String) : Option Nat :=
  match l with
  | [] => none
  | e :: t => if e.name = nm then some 0 else (positionByName t nm).map (· + 1)

/-- Rust `Vec::remove(i)` on a declaration collection. -/
def vecRemove (l : List SchemaDeclaration) (i : Nat) : List SchemaDeclaration :=
  match l, i with
  | [], _ => []
  | _ :: t, 0 => t
  | e :: t, j + 1 => e :: vecRemove t j

/-- The collection computation of `InvManDBPool::schema_alter`
(`src/database/sqlite/mod.rs` lines 405-411): if `contains` finds a
declaration `is_equal` to the new one (same name), it is removed, then the
new declaration is pushed at the end. -/
def schemaAlterCollection (config : List SchemaDeclaration)
    (decl : SchemaDeclaration) : List SchemaDeclaration :=
  let config2 :=
    match positionByName config decl.name with
    | some idx => vecRemove config idx
    | none => config
  config2 ++ [decl]

/-- The collection computation of `InvManDBPool::schema_remove`
(`src/database/sqlite/mod.rs` lines 428-437): `position` by name, bail with
a not-found error when absent, otherwise remove. -/
def schemaRemoveCollection (config : List SchemaDeclaration) (nm : String) :
    Option (List SchemaDeclaration) :=
  match positionByName config nm with
  | none => none
  | some i => some (vecRemove config i)

/-- `SchemaCollection::sql_names`.  Modelled from the spec: the method
itself lives in the missing `database` module; spec §4.2 step 3 and the
present `InvManDbHelper::to_sql_names` (`src/lib/utils.rs`) make it the
comma-joined list of declared column names (without the four base
columns, which `inventory_add`/`inventory_list` prepend explicitly). -/
def sqlNames (coll : List SchemaDeclaration) : String :=
  String.intercalate "," (coll.map (fun d => d.name))

/-- The column list of the migration's data-copy statement
(`alter_inventory_table`, `src/database/sqlite/mod.rs` lines 288-294):
`old_schema`'s names for `Alter`, `new_schema`'s names for `Remove`. -/
def copySourceCols (action_no : SchemaActionNo)
    (new_schema old_schema : List SchemaDeclaration) : List String :=
  match action_no with
  | SchemaActionNo.Alter => old_schema.map (fun d => d.name)
  | SchemaActionNo.Remove => new_schema.map (fun d => d.name)

/-- The copy statement itself:
`INSERT INTO invman_temp_inventory(cols) SELECT cols FROM invman_inventory`. -/
def copyTableSql (action_no : SchemaActionNo)
    (new_schema old_schema : List SchemaDeclaration) : String :=
  let cols :=
    match action_no with
    | SchemaActionNo.Alter => sqlNames old_schema
    | SchemaActionNo.Remove => sqlNames new_schema
  "INSERT INTO invman_temp_inventory(" ++ cols ++ ") SELECT " ++ cols ++
    " FROM invman_inventory"

/-- The `DEFAULT` clause `make_row_statement` declares for a column
(`src/database/sqlite/mod.rs` lines 211-225), as the value a row obtains
when an insert does not mention the column: no default for the sentinel
`"NULL"` (the column stays NULL), the current timestamp for
`CURRENT_TIMESTAMP`, otherwise the literal. -/
def columnDefault (d : SchemaDeclaration) (now : String) : Option String :=
  if d.default = "NULL" then none
  else if d.default = "CURRENT_TIMESTAMP" then some now
  else some d.default

/-- Access of a named column inside a row's declared-column list (the SQL
row lookup). -/
def fieldsLookup : List (String × Option String) → String → Option (Option String)
  | [], _ => none
  | (k, v) :: t, c => if k = c then some v else fieldsLookup t c

/-- The value a row holds for a declared column; a column absent from the
row reads as NULL. -/
def rowValue (r : InventoryRow) (c : String) : Option String :=
  match fieldsLookup r.fields c with
  | some v => v
  | none => none

/-- One row of `INSERT INTO invman_temp_inventory(cols) SELECT cols FROM
invman_inventory`: the fresh table's structure mirrors `new_schema`
(`make_temp_inventory_table`); the projected columns `cols` receive the old
row's values and every other column its declared default.  The fresh table
assigns new surrogate ids and fresh `created_at`/`updated_at` timestamps
(the copy lists no base columns). -/
def copyRow (new_schema : List SchemaDeclaration) (cols : List String)
    (now : String) (newId : Nat) (r : InventoryRow) : InventoryRow :=
  { id := newId
    created_at := now
    updated_at := now
    deleted_at := none
    fields := new_schema.map (fun d =>
      (d.name, if d.name ∈ cols then rowValue r d.name else columnDefault d now)) }

/-- The whole data-copy step over the record table. -/
def copyRows (new_schema : List SchemaDeclaration) (cols : List String)
    (now : String) (rows : List InventoryRow) : List InventoryRow :=
  (rows.enumFrom 1).map (fun p => copyRow new_schema cols now p.1 p.2)

/-- `SchemaDeclaration::to_json` from `src/lib/common/args.rs` (string
serialization of one declaration; the schema ledger and registry store the
serde serialization, whose exact text no claim inspects — this embedding
uses the repository's own printer for both). -/
def schemaDeclToJson (d : SchemaDeclaration) : String :=
  let b := fun (x : Bool) => if x then "true" else "false"
  let ct :=
    match d.column_type with
    | ColumnType.BOOL => "bool"
    | ColumnType.INT => "int"
    | ColumnType.REAL => "real"
    | ColumnType.TEXT => "text"
    | ColumnType.VARCHAR => "varchar"
  "\x7b\"name\":\"" ++ d.name ++ "\",\"display_name\":\"" ++ d.display_name ++
    "\",\"unique\":" ++ b d.unique ++ ",\"max_length\":" ++ toString d.max_length ++
    ",\"min_length\":" ++ toString d.min_length ++ ",\"max\":" ++ toString d.max ++
    ",\"min\":" ++ toString d.min ++ ",\"nullable\":" ++ b d.nullable ++
    ",\"column_type\":\"" ++ ct ++ "\",\"default\":\"" ++ d.default ++
    "\",\"hint\":\"" ++ d.hint ++ "\",\"layout\":\"" ++ d.layout ++ "\"\x7d"

/-- `InvManSerialization::to_json` for a declaration collection
(`src/lib/utils.rs`). -/
def schemaListToJson (l : List SchemaDeclaration) : String :=
  "[" ++ String.intercalate "," (l.map schemaDeclToJson) ++ "]"

/-- The body of `InvManSqlite::alter_inventory_table`
(`src/database/sqlite/mod.rs` lines 278-313) between `transaction()` and
`commit()`.  `faults i = true` makes the transaction's `i`-th statement
fail with a storage error, modelling an engine failure of that statement;
statements are, in source order: 0 create fresh table, 1 copy data,
2 drop old table, 3 rename, 4 recreate trigger, 5 append schema-ledger
row, 6 persist the registry snapshot. -/
def alterInventoryTableBody (faults : Nat → Bool)
    (new_schema old_schema : List SchemaDeclaration)
    (action_no : SchemaActionNo) (userId : Nat) (now : String)
    (s0 : DBState) : Except DBError DBState :=
  if faults 0 then Except.error DBError.storage else
  let cols := copySourceCols action_no new_schema old_schema
  if faults 1 then Except.error DBError.storage else
  let temp := copyRows new_schema cols now s0.inventory
  if faults 2 then Except.error DBError.storage else
  if faults 3 then Except.error DBError.storage else
  let s1 := { s0 with inventory := temp, inventory_next_id := temp.length + 1 }
  if faults 4 then Except.error DBError.storage else
  if faults 5 then Except.error DBError.storage else
  let srow : SchemaTxRow :=
    { id := s1.schema_tx_next_id, dispatcher := userId, action_no := action_no,
      from_val := schemaListToJson old_schema, to_val := schemaListToJson new_schema }
  let s2 := { s1 with
    schema_tx := s1.schema_tx ++ [srow]
    schema_tx_next_id := s1.schema_tx_next_id + 1 }
  if faults 6 then Except.error DBError.storage else
  Except.ok { s2 with config_schema := new_schema }

/-- `InvManDBPool::schema_alter` (`src/database/sqlite/mod.rs` lines
399-419): compute the new collection in the mutable in-memory config, then
run the migration transaction.  Returns the (possibly mutated) in-memory
collection, the observable database state, and the error if any. -/
def schemaAlter (faults : Nat → Bool) (config : List SchemaDeclaration)
    (decl : SchemaDeclaration) (userId : Nat) (now : String) (s : DBState) :
    List SchemaDeclaration × DBState × Option DBError :=
  let old_schema := config
  let new_schema := schemaAlterCollection config decl
  let r := runTx
    (alterInventoryTableBody faults new_schema old_schema SchemaActionNo.Alter userId now) s
  (new_schema, r.1, r.2)

/-- `InvManDBPool::schema_remove` (`src/database/sqlite/mod.rs` lines
421-445): bail with a not-found error before any transaction when no
declaration carries the name, else remove it and run the migration. -/
def schemaRemove (faults : Nat → Bool) (config : List SchemaDeclaration)
    (nm : String) (userId : Nat) (now : String) (s : DBState) :
    List SchemaDeclaration × DBState × Option DBError :=
  match schemaRemoveCollection config nm with
  | none => (config, s, some DBError.notFound)
  | some new_schema =>
      let r := runTx
        (alterInventoryTableBody faults new_schema config SchemaActionNo.Remove userId now) s
      (new_schema, r.1, r.2)

/-- SQL `MAX(id)`: the maximum of a list of ids, `none` on an empty table. -/
def maxId : List Nat → Option Nat
  | [] => none
  | x :: t =>
      match maxId t with
      | none => some x
      | some m => some (Nat.max x m)

/-- `SELECT MAX(id) FROM invman_inventory_schema_tx` read into an `IdEntry`
(`u32`): on an empty schema ledger the query yields NULL and the row
conversion fails. -/
def latestSchemaId (s : DBState) : Except DBError Nat :=
  match maxId (s.schema_tx.map (fun r => r.id)) with
  | some m => Except.ok m
  | none => Except.error DBError.nullId

/-- The declared-column part of `Row::to_typed_key_value`
(`src/database/sqlite/mod.rs` lines 46-118): each result column is looked
up in the schema collection (failing when no declaration carries the key)
and paired with its declared column type. -/
def typedEntriesOf (declarations : List SchemaDeclaration) :
    List (String × Option String) → Except DBError (List KeyValueTypeEntry)
  | [] => Except.ok []
  | (k, v) :: t =>
      match declarations.find? (fun e => e.name == k) with
      | none => Except.error DBError.declNotFound
      | some decl =>
          match typedEntriesOf declarations t with
          | Except.ok rest =>
              Except.ok ({ key := k, value := v, column_type := decl.column_type } :: rest)
          | Except.error e => Except.error e

/-- `Row::to_typed_key_value` for the
`SELECT id,created_at,updated_at,deleted_at,<declared> …` shape used by
`inventory_add` and `inventory_list`: the four base columns are converted
by their special cases, the rest through the schema collection. -/
def rowToTypedKeyValueFull (declarations : List SchemaDeclaration)
    (r : InventoryRow) : Except DBError KeyValueCollection :=
  match typedEntriesOf declarations r.fields with
  | Except.error e => Except.error e
  | Except.ok entries =>
      Except.ok ⟨{ key := "id", value := some (toString r.id), column_type := ColumnType.INT } ::
        { key := "created_at", value := some r.created_at, column_type := ColumnType.TEXT } ::
        { key := "updated_at", value := some r.updated_at, column_type := ColumnType.TEXT } ::
        { key := "deleted_at", value := r.deleted_at, column_type := ColumnType.TEXT } ::
        entries⟩

/-- `Row::to_typed_key_value` for the `SELECT <declared names> …` shape
used by `inventory_edit` and `inventory_remove` (their snapshot query
lists only the declared columns). -/
def rowToTypedKeyValueDecls (declarations : List SchemaDeclaration)
    (r : InventoryRow) : Except DBError KeyValueCollection :=
  match typedEntriesOf declarations r.fields with
  | Except.error e => Except.error e
  | Except.ok entries => Except.ok ⟨entries⟩

/-- Modelled from the spec (§6 record JSON projection):
`KeyValueCollection::to_json` lives in the missing `database` module.  BOOL
values normalize to `true`/`false` (`"true"`/`"1"` are true), TEXT/VARCHAR
values are quoted, INT/REAL pass through, absent values print `null`.  No
claim inspects this text beyond equality of snapshots. -/
def entryJsonValue (e : KeyValueTypeEntry) : String :=
  match e.value with
  | none => "null"
  | some v =>
      match e.column_type with
      | ColumnType.BOOL => if v = "true" ∨ v = "1" then "true" else "false"
      | ColumnType.TEXT => "\"" ++ v ++ "\""
      | ColumnType.VARCHAR => "\"" ++ v ++ "\""
      | ColumnType.INT => v
      | ColumnType.REAL => v

/-- Modelled from the spec: JSON emission of one snapshot. -/
def kvToJson (c : KeyValueCollection) : String :=
  "\x7b" ++ String.intercalate ","
    (c.collection.map (fun e => "\"" ++ e.key ++ "\":" ++ entryJsonValue e)) ++ "\x7d"

/-- `SELECT … FROM invman_inventory WHERE id=?1` (the textual identifier is
coerced to the INTEGER id by SQLite's comparison affinity; the embedding
takes the numeric id directly). -/
def findRow (s : DBState) (identifier : Nat) : Option InventoryRow :=
  s.inventory.find? (fun r => r.id == identifier)

/-- Lookup of a supplied field by column name. -/
def kvFind (params : KeyValueCollection) (nm : String) : Option KeyValueTypeEntry :=
  params.collection.find? (fun e => e.key == nm)

/-- The generated INSERT/UPDATE statements name the supplied keys as
columns; a key that is no declared column makes the statement fail in the
engine ("no such column"). -/
def ensureKeysDeclared (params : KeyValueCollection)
    (config : List SchemaDeclaration) : Except DBError Unit :=
  if params.collection.all (fun e => config.any (fun d => d.name == e.key)) then
    Except.ok ()
  else Except.error DBError.storage

/-- The transaction body of `InvManDBPool::inventory_add`
(`src/database/sqlite/mod.rs` lines 447-489): read the latest schema id,
insert the new row (supplied fields by name, every other declared column
its default, timestamps and id assigned by the table), read it back fully
typed, append one record-ledger row `(Add, NULL, snapshot)` and one
event-ledger row targeting it. -/
def inventoryAddBody (params : KeyValueCollection)
    (config : List SchemaDeclaration) (userId : Nat) (now : String)
    (s0 : DBState) : Except DBError DBState :=
  match latestSchemaId s0 with
  | Except.error e => Except.error e
  | Except.ok latest =>
      match ensureKeysDeclared params config with
      | Except.error e => Except.error e
      | Except.ok _ =>
          let rowId := s0.inventory_next_id
          let row : InventoryRow :=
            { id := rowId, created_at := now, updated_at := now, deleted_at := none,
              fields := config.map (fun d =>
                (d.name, match kvFind params d.name with
                  | some e => e.value
                  | none => columnDefault d now)) }
          let s1 := { s0 with inventory := s0.inventory ++ [row],
                              inventory_next_id := rowId + 1 }
          match rowToTypedKeyValueFull config row with
          | Except.error e => Except.error e
          | Except.ok snap =>
              let txId := s1.inventory_tx_next_id
              let trow : InventoryTxRow :=
                { id := txId, dispatcher := userId, schema_id := latest,
                  inventory_id := rowId, action_no := DBOpNo.Add,
                  from_val := none, to_val := kvToJson snap }
              let s2 := { s1 with inventory_tx := s1.inventory_tx ++ [trow],
                                  inventory_tx_next_id := txId + 1 }
              let erow : EventTxRow :=
                { id := s2.event_tx_next_id, action_no := EventActionNo.InventoryAdd,
                  dispatcher := userId, target := txId }
              Except.ok { s2 with event_tx := s2.event_tx ++ [erow],
                                  event_tx_next_id := s2.event_tx_next_id + 1 }

/-- `InvManDBPool::inventory_add` as a whole (transaction wrapped). -/
def inventoryAdd (params : KeyValueCollection) (config : List SchemaDeclaration)
    (userId : Nat) (now : String) (s : DBState) : DBState × Option DBError :=
  runTx (inventoryAddBody params config userId now) s

/-- `UPDATE invman_inventory SET <params> WHERE id=?1` followed by the
`AFTER UPDATE` trigger touching `updated_at`, applied to one row. -/
def applyEditRow (params : KeyValueCollection) (now : String)
    (r : InventoryRow) : InventoryRow :=
  { r with
    fields := r.fields.map (fun kv =>
      match kvFind params kv.1 with
      | some e => (kv.1, e.value)
      | none => kv)
    updated_at := now }

/-- The transaction body of `InvManDBPool::inventory_edit`
(`src/database/sqlite/mod.rs` lines 524-566): read the before snapshot
(failing when the identifier resolves to no row), apply the update, read
the after snapshot, read the latest schema id, append one record-ledger
row `(Edit, before, after)` and one event-ledger row.  The ledger's
`inventory_id` comes from `KeyValueCollection::get_id`, which lives in the
missing `database` module; modelled from the spec: the record-ledger row
carries the mutated record's id. -/
def inventoryEditBody (identifier : Nat) (params : KeyValueCollection)
    (config : List SchemaDeclaration) (userId : Nat) (now : String)
    (s0 : DBState) : Except DBError DBState :=
  match findRow s0 identifier with
  | none => Except.error DBError.queryReturnedNoRows
  | some before_row =>
      match rowToTypedKeyValueDecls config before_row with
      | Except.error e => Except.error e
      | Except.ok before_item =>
          match ensureKeysDeclared params config with
          | Except.error e => Except.error e
          | Except.ok _ =>
              let s1 := { s0 with inventory := s0.inventory.map (fun r =>
                if r.id = identifier then applyEditRow params now r else r) }
              match findRow s1 identifier with
              | none => Except.error DBError.queryReturnedNoRows
              | some after_row =>
                  match rowToTypedKeyValueDecls config after_row with
                  | Except.error e => Except.error e
                  | Except.ok after_item =>
                      match latestSchemaId s1 with
                      | Except.error e => Except.error e
                      | Except.ok latest =>
                          let txId := s1.inventory_tx_next_id
                          let trow : InventoryTxRow :=
                            { id := txId, dispatcher := userId, schema_id := latest,
                              inventory_id := before_row.id, action_no := DBOpNo.Edit,
                              from_val := some (kvToJson before_item),
                              to_val := kvToJson after_item }
                          let s2 := { s1 with
                            inventory_tx := s1.inventory_tx ++ [trow],
                            inventory_tx_next_id := txId + 1 }
                          let erow : EventTxRow :=
                            { id := s2.event_tx_next_id,
                              action_no := EventActionNo.InventoryEdit,
                              dispatcher := userId, target := txId }
                          Except.ok { s2 with
                            event_tx := s2.event_tx ++ [erow],
                            event_tx_next_id := s2.event_tx_next_id + 1 }

/-- `InvManDBPool::inventory_edit` as a whole. -/
def inventoryEdit (identifier : Nat) (params : KeyValueCollection)
    (config : List SchemaDeclaration) (userId : Nat) (now : String)
    (s : DBState) : DBState × Option DBError :=
  runTx (inventoryEditBody identifier params config userId now) s

/-- `UPDATE invman_inventory SET deleted_at=now WHERE id=?1 AND deleted_at
IS NULL`, with the `AFTER UPDATE` trigger touching `updated_at` on the
rows the statement actually updated. -/
def applyRemoveRow (identifier : Nat) (now : String) (r : InventoryRow) :
    InventoryRow :=
  if r.id = identifier ∧ r.deleted_at = none then
    { r with deleted_at := some now, updated_at := now }
  else r

/-- The transaction body of `InvManDBPool::inventory_remove`
(`src/database/sqlite/mod.rs` lines 568-605): read the before snapshot
(failing when no row carries the id), soft-delete only when not already
deleted, read the after snapshot, read the latest schema id, append one
record-ledger row `(Delete, before, after)` and one event-ledger row.
(`get_id` as in `inventoryEditBody`.) -/
def inventoryRemoveBody (identifier : Nat) (config : List SchemaDeclaration)
    (userId : Nat) (now : String) (s0 : DBState) : Except DBError DBState :=
  match findRow s0 identifier with
  | none => Except.error DBError.queryReturnedNoRows
  | some before_row =>
      match rowToTypedKeyValueDecls config before_row with
      | Except.error e => Except.error e
      | Except.ok before_item =>
          let s1 := { s0 with inventory := s0.inventory.map (applyRemoveRow identifier now) }
          match findRow s1 identifier with
          | none => Except.error DBError.queryReturnedNoRows
          | some after_row =>
              match rowToTypedKeyValueDecls config after_row with
              | Except.error e => Except.error e
              | Except.ok after_item =>
                  match latestSchemaId s1 with
                  | Except.error e => Except.error e
                  | Except.ok latest =>
                      let txId := s1.inventory_tx_next_id
                      let trow : InventoryTxRow :=
                        { id := txId, dispatcher := userId, schema_id := latest,
                          inventory_id := before_row.id, action_no := DBOpNo.Delete,
                          from_val := some (kvToJson before_item),
                          to_val := kvToJson after_item }
                      let s2 := { s1 with
                        inventory_tx := s1.inventory_tx ++ [trow],
                        inventory_tx_next_id := txId + 1 }
                      let erow : EventTxRow :=
                        { id := s2.event_tx_next_id,
                          action_no := EventActionNo.InventoryRemove,
                          dispatcher := userId, target := txId }
                      Except.ok { s2 with
                        event_tx := s2.event_tx ++ [erow],
                        event_tx_next_id := s2.event_tx_next_id + 1 }

/-- `InvManDBPool::inventory_remove` as a whole. -/
def inventoryRemove (identifier : Nat) (config : List SchemaDeclaration)
    (userId : Nat) (now : String) (s : DBState) : DBState × Option DBError :=
  runTx (inventoryRemoveBody identifier config userId now) s

/-- `InvManDBPool::inventory_list` (`src/database/sqlite/mod.rs` lines
491-522) on the non-raw path: a read-only projection of the record table
(`LIMIT` applied when positive), each row converted to its typed snapshot.
The method takes `&self`; the returned state is the untouched input. -/
def inventoryList (limit : Int) (config : List SchemaDeclaration)
    (s : DBState) : DBState × Except DBError (List KeyValueCollection) :=
  let rows := if limit > 0 then s.inventory.take limit.toNat else s.inventory
  (s, rows.mapM (rowToTypedKeyValueFull config))

/-! Concrete fixtures used by the witness theorems: the spec's example
schema (`qty` as a bounded `INT`, `sku` as a `VARCHAR(10)`) and a small
database state holding one record and one schema-ledger row. -/

/-- The spec scenario column `name=qty, type=INT, min=0, max=100`. -/
def qtyDecl : SchemaDeclaration :=
  { name := "qty", display_name := "Qty", unique := false, max_length := 0,
    min_length := 0, max := 100, min := 0, nullable := true,
    column_type := ColumnType.INT, default := "NULL", hint := "", layout := "" }

/-- The spec scenario column `sku, VARCHAR, max_length=10`. -/
def skuDecl : SchemaDeclaration :=
  { name := "sku", display_name := "Sku", unique := false, max_length := 10,
    min_length := 0, max := 0, min := 0, nullable := true,
    column_type := ColumnType.VARCHAR, default := "NULL", hint := "", layout := "" }

/-- A record with `qty = 5`. -/
def demoRow : InventoryRow :=
  { id := 1, created_at := "t0", updated_at := "t0", deleted_at := none,
    fields := [("qty", some "5")] }

/-- The schema-ledger row recording the mutation that introduced
`qtyDecl`. -/
def demoSchemaTxRow : SchemaTxRow :=
  { id := 1, dispatcher := 1, action_no := SchemaActionNo.Alter,
    from_val := "[]", to_val := schemaListToJson [qtyDecl] }

/-- A database holding `demoRow` under schema `[qtyDecl]`, after one schema
mutation. -/
def demoState : DBState :=
  { inventory := [demoRow], inventory_next_id := 2,
    schema_tx := [demoSchemaTxRow],
    schema_tx_next_id := 2,
    inventory_tx := [], inventory_tx_next_id := 1,
    event_tx := [], event_tx_next_id := 1,
    config_schema := [qtyDecl] }

/-- `demoRow` after a soft delete. -/
def demoDeletedRow : InventoryRow :=
  { demoRow with deleted_at := some "t1", updated_at := "t1" }

/-- The same database with the record already soft-deleted. -/
def demoDeletedState : DBState :=
  { demoState with inventory := [demoDeletedRow] }

/-! Helper lemmas shared between the claim theorems. -/

/-- A failed transaction leaves the pre-transaction state observable. -/
theorem runTx_err_state (body : DBState → Except DBError DBState) (s : DBState)
    (h : (runTx body s).2.isSome) : (runTx body s).1 = s := by
  unfold runTx at h ⊢
  cases hbs : body s with
  | ok s2 => rw [hbs] at h; simp at h
  | error e => rfl

/-- Any fault among the seven statements of the migration transaction makes
its body fail. -/
theorem alterBody_error_of_fault (faults : Nat → Bool)
    (new_schema old_schema : List SchemaDeclaration) (action_no : SchemaActionNo)
    (userId : Nat) (now : String) (s : DBState)
    (h : ∃ i, i ≤ 6 ∧ faults i = true) :
    ∃ e, alterInventoryTableBody faults new_schema old_schema action_no userId now s
      = Except.error e := by
  obtain ⟨i, hi, hf⟩ := h
  unfold alterInventoryTableBody
  by_cases h0 : faults 0 = true
  · simp [h0]
  · by_cases h1 : faults 1 = true
    · simp [h0, h1]
    · by_cases h2 : faults 2 = true
      · simp [h0, h1, h2]
      · by_cases h3 : faults 3 = true
        · simp [h0, h1, h2, h3]
        · by_cases h4 : faults 4 = true
          · simp [h0, h1, h2, h3, h4]
          · by_cases h5 : faults 5 = true
            · simp [h0, h1, h2, h3, h4, h5]
            · by_cases h6 : faults 6 = true
              · simp [h0, h1, h2, h3, h4, h5, h6]
              · exfalso
                interval_cases i <;> simp_all

/-- `position` by name finds nothing exactly when no declaration carries
the name. -/
theorem positionByName_none_iff (l : List SchemaDeclaration) (nm : String) :
    positionByName l nm = none ↔ ∀ d ∈ l, d.name ≠ nm := by
  induction l with
  | nil => simp [positionByName]
  | cons e t ih =>
      by_cases he : e.name = nm
      · simp [positionByName, he]
      · simp [positionByName, he, ih]

/-- Under name-uniqueness, removing the declaration `position` found equals
filtering the name out. -/
theorem vecRemove_at_position (l : List SchemaDeclaration) (nm : String)
    (i : Nat) (hnd : (l.map (fun d => d.name)).Nodup)
    (hpos : positionByName l nm = some i) :
    vecRemove l i = l.filter (fun e => e.name ≠ nm) := by
  induction l generalizing i with
  | nil => simp [positionByName] at hpos
  | cons e t ih =>
      simp only [List.map_cons, List.nodup_cons] at hnd
      by_cases he : e.name = nm
      · simp only [positionByName, he, if_pos rfl] at hpos
        have hi0 : i = 0 := by simpa using hpos.symm
        subst hi0
        have ht : ∀ d ∈ t, ¬(d.name = nm) := by
          intro d hd hdnm
          apply hnd.1
          have hmem : d.name ∈ List.map (fun x => x.name) t :=
            List.mem_map_of_mem (fun x => x.name) hd
          rw [hdnm] at hmem
          rw [he]
          exact hmem
        simp only [vecRemove]
        rw [List.filter_cons, if_neg (by simp [he])]
        exact (List.filter_eq_self.mpr (fun d hd => by simp [ht d hd])).symm
      · simp only [positionByName, if_neg he] at hpos
        cases hj : positionByName t nm with
        | none => rw [hj] at hpos; simp at hpos
        | some j =>
            rw [hj] at hpos
            have hij : i = j + 1 := by simpa using hpos.symm
            subst hij
            simp only [vecRemove]
            rw [List.filter_cons, if_pos (by simp [he])]
            rw [ih j hnd.2 hj]

/-- Looking a declared column up in a row built per declaration: under
name-uniqueness the declaration's own entry is found. -/
theorem fieldsLookup_map_of_mem (l : List SchemaDeclaration)
    (g : SchemaDeclaration → Option String) (d : SchemaDeclaration)
    (hnd : (l.map (fun x => x.name)).Nodup) (hd : d ∈ l) :
    fieldsLookup (l.map (fun e => (e.name, g e))) d.name = some (g d) := by
  induction l with
  | nil => simp at hd
  | cons e t ih =>
      simp only [List.map_cons, List.nodup_cons] at hnd
      rcases List.mem_cons.mp hd with he | ht
      · subst he
        simp [fieldsLookup]
      · have hne : e.name ≠ d.name := by
          intro hcontra
          exact hnd.1 (hcontra ▸ List.mem_map_of_mem (fun x => x.name) ht)
        simp only [List.map_cons, fieldsLookup, if_neg hne]
        exact ih hnd.2 ht

/-- A name no declaration carries is absent from a row built per
declaration. -/
theorem fieldsLookup_map_of_not_mem (l : List SchemaDeclaration)
    (g : SchemaDeclaration → Option String) (nm : String)
    (h : nm ∉ l.map (fun x => x.name)) :
    fieldsLookup (l.map (fun e => (e.name, g e))) nm = none := by
  induction l with
  | nil => simp [fieldsLookup]
  | cons e t ih =>
      rw [List.map_cons, List.mem_cons] at h
      push_neg at h
      obtain ⟨h1, h2⟩ := h
      simp only [List.map_cons, fieldsLookup]
      rw [if_neg (fun hc => h1 hc.symm)]
      exact ih h2

/-- Under unique ids, the row `find?` returns is the only row carrying the
identifier. -/
theorem findRow_unique (l : List InventoryRow) (ident : Nat) (r : InventoryRow)
    (hnd : (l.map (fun x => x.id)).Nodup)
    (hfind : l.find? (fun x => x.id == ident) = some r) :
    ∀ x ∈ l, x.id = ident → x = r := by
  induction l with
  | nil => simp at hfind
  | cons a t ih =>
      simp only [List.map_cons, List.nodup_cons] at hnd
      intro x hx hxid
      by_cases ha : a.id = ident
      · rw [List.find?_cons_of_pos _ (by simpa using ha)] at hfind
        have har : a = r := by simpa using hfind
        rcases List.mem_cons.mp hx with hxa | hxt
        · rw [hxa, har]
        · exfalso
          apply hnd.1
          have hmem : x.id ∈ List.map (fun y => y.id) t :=
            List.mem_map_of_mem (fun y => y.id) hxt
          rw [hxid] at hmem
          rw [ha]
          exact hmem
      · rw [List.find?_cons_of_neg _ (by simpa using ha)] at hfind
        rcases List.mem_cons.mp hx with hxa | hxt
        · exact absurd (hxa ▸ hxid) ha
        · exact ih hnd.2 hfind x hxt hxid

/-- A map that fixes every element of a list fixes the list. -/
theorem map_fix {α : Type} (l : List α) (f : α → α)
    (h : ∀ x ∈ l, f x = x) : l.map f = l := by
  induction l with
  | nil => rfl
  | cons a t ih =>
      rw [List.map_cons, h a (List.mem_cons_self a t),
        ih (fun x hx => h x (List.mem_cons_of_mem a hx))]

/-- `MAX(id)` over a non-empty ledger is a value, so the latest-schema
query succeeds. -/
theorem latestSchemaId_ok_of_ne_nil (s : DBState) (h : s.schema_tx ≠ []) :
    ∃ m, latestSchemaId s = Except.ok m := by
  unfold latestSchemaId
  cases hs : s.schema_tx with
  | nil => exact absurd hs h
  | cons a t =>
      simp only [List.map_cons, maxId]
      cases maxId (t.map (fun r => r.id)) <;> simp

/-- Shape of the state a successful `inventory_add` transaction commits:
the record ledger and the event ledger each grow by exactly the one row
the operation writes, and the schema ledger and registry stay untouched. -/
theorem inventoryAddBody_ok (params : KeyValueCollection)
    (config : List SchemaDeclaration) (userId : Nat) (now : String)
    (s s2 : DBState)
    (h : inventoryAddBody params config userId now s = Except.ok s2) :
    ∃ latest snap,
      latestSchemaId s = Except.ok latest
      ∧ s2.inventory_tx = s.inventory_tx ++
          [{ id := s.inventory_tx_next_id, dispatcher := userId,
             schema_id := latest, inventory_id := s.inventory_next_id,
             action_no := DBOpNo.Add, from_val := none,
             to_val := kvToJson snap }]
      ∧ s2.event_tx = s.event_tx ++
          [{ id := s.event_tx_next_id, action_no := EventActionNo.InventoryAdd,
             dispatcher := userId, target := s.inventory_tx_next_id }]
      ∧ s2.schema_tx = s.schema_tx
      ∧ s2.config_schema = s.config_schema := by
  unfold inventoryAddBody at h
  cases h1 : latestSchemaId s with
  | error e => rw [h1] at h; exact absurd h (by simp)
  | ok latest =>
      rw [h1] at h
      cases h2 : ensureKeysDeclared params config with
      | error e => rw [h2] at h; exact absurd h (by simp)
      | ok u =>
          rw [h2] at h
          dsimp only [] at h
          cases h3 : rowToTypedKeyValueFull config
              { id := s.inventory_next_id, created_at := now, updated_at := now,
                deleted_at := none,
                fields := config.map (fun d =>
                  (d.name, match kvFind params d.name with
                    | some e => e.value
                    | none => columnDefault d now)) } with
          | error e => rw [h3] at h; exact absurd h (by simp)
          | ok snap =>
              rw [h3] at h
              dsimp only [] at h
              injection h with h4
              refine ⟨latest, snap, rfl, ?_, ?_, ?_, ?_⟩ <;> rw [← h4]

/-- Shape of the state a successful `inventory_edit` transaction commits:
the before row was found, the update is applied in place, and exactly one
record-ledger row and one event-ledger row are appended. -/
theorem inventoryEditBody_ok (identifier : Nat) (params : KeyValueCollection)
    (config : List SchemaDeclaration) (userId : Nat) (now : String)
    (s s2 : DBState)
    (h : inventoryEditBody identifier params config userId now s = Except.ok s2) :
    ∃ latest before_row bi ai,
      findRow s identifier = some before_row
      ∧ latestSchemaId s = Except.ok latest
      ∧ s2.inventory = s.inventory.map (fun r =>
          if r.id = identifier then applyEditRow params now r else r)
      ∧ s2.inventory_tx = s.inventory_tx ++
          [{ id := s.inventory_tx_next_id, dispatcher := userId,
             schema_id := latest, inventory_id := before_row.id,
             action_no := DBOpNo.Edit, from_val := some (kvToJson bi),
             to_val := kvToJson ai }]
      ∧ s2.event_tx = s.event_tx ++
          [{ id := s.event_tx_next_id, action_no := EventActionNo.InventoryEdit,
             dispatcher := userId, target := s.inventory_tx_next_id }]
      ∧ s2.schema_tx = s.schema_tx
      ∧ s2.config_schema = s.config_schema := by
  unfold inventoryEditBody at h
  cases h1 : findRow s identifier with
  | none => rw [h1] at h; exact absurd h (by simp)
  | some before_row =>
      rw [h1] at h
      dsimp only [] at h
      cases h2 : rowToTypedKeyValueDecls config before_row with
      | error e => rw [h2] at h; exact absurd h (by simp)
      | ok bi =>
          rw [h2] at h
          dsimp only [] at h
          cases h3 : ensureKeysDeclared params config with
          | error e => rw [h3] at h; exact absurd h (by simp)
          | ok u =>
              rw [h3] at h
              dsimp only [] at h
              cases h4 : findRow
                  { s with inventory := s.inventory.map (fun r =>
                      if r.id = identifier then applyEditRow params now r else r) }
                  identifier with
              | none => rw [h4] at h; exact absurd h (by simp)
              | some after_row =>
                  rw [h4] at h
                  dsimp only [] at h
                  cases h5 : rowToTypedKeyValueDecls config after_row with
                  | error e => rw [h5] at h; exact absurd h (by simp)
                  | ok ai =>
                      rw [h5] at h
                      dsimp only [] at h
                      cases h6 : latestSchemaId
                          { s with inventory := s.inventory.map (fun r =>
                              if r.id = identifier then applyEditRow params now r else r) } with
                      | error e => rw [h6] at h; exact absurd h (by simp)
                      | ok latest =>
                          rw [h6] at h
                          dsimp only [] at h
                          injection h with h7
                          exact ⟨latest, before_row, bi, ai, rfl, h6, by
                            rw [← h7], by rw [← h7], by rw [← h7], by rw [← h7],
                            by rw [← h7]⟩

/-- Shape of the state a successful `inventory_remove` transaction
commits: the before row was found, the soft delete is applied to the
not-yet-deleted row carrying the id, and exactly one record-ledger row and
one event-ledger row are appended. -/
theorem inventoryRemoveBody_ok (identifier : Nat)
    (config : List SchemaDeclaration) (userId : Nat) (now : String)
    (s s2 : DBState)
    (h : inventoryRemoveBody identifier config userId now s = Except.ok s2) :
    ∃ latest before_row bi ai,
      findRow s identifier = some before_row
      ∧ latestSchemaId s = Except.ok latest
      ∧ s2.inventory = s.inventory.map (applyRemoveRow identifier now)
      ∧ s2.inventory_tx = s.inventory_tx ++
          [{ id := s.inventory_tx_next_id, dispatcher := userId,
             schema_id := latest, inventory_id := before_row.id,
             action_no := DBOpNo.Delete, from_val := some (kvToJson bi),
             to_val := kvToJson ai }]
      ∧ s2.event_tx = s.event_tx ++
          [{ id := s.event_tx_next_id, action_no := EventActionNo.InventoryRemove,
             dispatcher := userId, target := s.inventory_tx_next_id }]
      ∧ s2.schema_tx = s.schema_tx
      ∧ s2.config_schema = s.config_schema := by
  unfold inventoryRemoveBody at h
  cases h1 : findRow s identifier with
  | none => rw [h1] at h; exact absurd h (by simp)
  | some before_row =>
      rw [h1] at h
      dsimp only [] at h
      cases h2 : rowToTypedKeyValueDecls config before_row with
      | error e => rw [h2] at h; exact absurd h (by simp)
      | ok bi =>
          rw [h2] at h
          dsimp only [] at h
          cases h4 : findRow
              { s with inventory := s.inventory.map (applyRemoveRow identifier now) }
              identifier with
          | none => rw [h4] at h; exact absurd h (by simp)
          | some after_row =>
              rw [h4] at h
              dsimp only [] at h
              cases h5 : rowToTypedKeyValueDecls config after_row with
              | error e => rw [h5] at h; exact absurd h (by simp)
              | ok ai =>
                  rw [h5] at h
                  dsimp only [] at h
                  cases h6 : latestSchemaId
                      { s with inventory := s.inventory.map (applyRemoveRow identifier now) } with
                  | error e => rw [h6] at h; exact absurd h (by simp)
                  | ok latest =>
                      rw [h6] at h
                      dsimp only [] at h
                      injection h with h7
                      exact ⟨latest, before_row, bi, ai, rfl, h6, by
                        rw [← h7], by rw [← h7], by rw [← h7], by rw [← h7],
                        by rw [← h7]⟩

/-! Claim theorems. -/

/-- Claim C7: every declaration the validator accepts satisfies
`min_length ≤ max_length`, `min ≤ max` and `VARCHAR → max_length > 0`; the
three rules are checked in that order, each rejection carrying the failure
message naming the violated rule; and a VARCHAR declaration with
`max_length = 0` always fails validation. -/
theorem c7_validator_rules (args : InventorySchemaAlterArgs) :
    (∀ d, schemaDeclarationNew args = Except.ok d →
      d.min_length ≤ d.max_length ∧ d.min ≤ d.max ∧
        (d.column_type = ColumnType.VARCHAR → 0 < d.max_length))
    ∧ ((declOf args).min_length > (declOf args).max_length →
        schemaDeclarationNew args =
          Except.error "Schema min-length parameter cannot be larger than max-length!")
    ∧ ((declOf args).min_length ≤ (declOf args).max_length →
        (declOf args).min > (declOf args).max →
        schemaDeclarationNew args =
          Except.error "Schema min parameter cannot be larger than max!")
    ∧ ((declOf args).min_length ≤ (declOf args).max_length →
        (declOf args).min ≤ (declOf args).max →
        (declOf args).column_type = ColumnType.VARCHAR →
        (declOf args).max_length = 0 →
        schemaDeclarationNew args =
          Except.error "Schema cannot have column type varchar with max-length being 0!")
    ∧ ((declOf args).column_type = ColumnType.VARCHAR →
        (declOf args).max_length = 0 →
        ∃ e, schemaDeclarationNew args = Except.error e) := by
  refine ⟨?_, ?_, ?_, ?_, ?_⟩
  · intro d h
    simp only [schemaDeclarationNew] at h
    split_ifs at h with h1 h2 h3 h4 h5
    have hd : declOf args = d := by simpa using h
    subst hd
    refine ⟨by omega, by omega, ?_⟩
    intro hv
    rcases Nat.eq_zero_or_pos (declOf args).max_length with h0 | h0
    · exact absurd ⟨hv, h0⟩ h3
    · exact h0
  · intro h1
    simp only [schemaDeclarationNew]
    rw [if_pos h1]
  · intro h1 h2
    simp only [schemaDeclarationNew]
    rw [if_neg (by omega), if_pos h2]
  · intro h1 h2 h3 h4
    simp only [schemaDeclarationNew]
    rw [if_neg (by omega), if_neg (by omega), if_pos ⟨h3, h4⟩]
  · intro hv h0
    simp only [schemaDeclarationNew]
    split_ifs with h1 h2 h3 h4 h5
    · exact ⟨_, rfl⟩
    · exact ⟨_, rfl⟩
    · exact ⟨_, rfl⟩
    · exact ⟨_, rfl⟩
    · exact ⟨_, rfl⟩
    · exact absurd ⟨hv, h0⟩ h3

/-- Arguments for a VARCHAR column without `max_length` (the spec's
always-rejected case). -/
def varcharZeroArgs : InventorySchemaAlterArgs :=
  { name := "sku", display_name := none, unique := false, max_length := none,
    min_length := none, max := none, min := none, nullable := none,
    column_type := ColumnType.VARCHAR, default := none, hint := none,
    layout := none }

/-- Arguments with `min_length > max_length`. -/
def badLengthArgs : InventorySchemaAlterArgs :=
  { name := "note", display_name := none, unique := false, max_length := some 2,
    min_length := some 5, max := none, min := none, nullable := none,
    column_type := ColumnType.TEXT, default := none, hint := none,
    layout := none }

/-- Arguments for the spec's `qty` column. -/
def qtyArgs : InventorySchemaAlterArgs :=
  { name := "qty", display_name := some "Qty", unique := false,
    max_length := none, min_length := none, max := some 100, min := some 0,
    nullable := some true, column_type := ColumnType.INT, default := none,
    hint := none, layout := none }

theorem c7_validator_rules_w :
    (∃ e, schemaDeclarationNew varcharZeroArgs = Except.error e)
    ∧ schemaDeclarationNew badLengthArgs =
        Except.error "Schema min-length parameter cannot be larger than max-length!"
    ∧ ((declOf qtyArgs).min_length ≤ (declOf qtyArgs).max_length
        ∧ (declOf qtyArgs).min ≤ (declOf qtyArgs).max) :=
  ⟨(c7_validator_rules varcharZeroArgs).2.2.2.2 rfl rfl,
   (c7_validator_rules badLengthArgs).2.1 (by decide),
   ⟨((c7_validator_rules qtyArgs).1 (declOf qtyArgs) rfl).1,
    ((c7_validator_rules qtyArgs).1 (declOf qtyArgs) rfl).2.1⟩⟩

/-- An INT column with a configured `max_length = 2` and the literal
default `"100"`: per the claim the default-length check should not apply
to a non-string column, so this declaration would be accepted. -/
def intBadDefaultArgs : InventorySchemaAlterArgs :=
  { name := "n", display_name := none, unique := false, max_length := some 2,
    min_length := none, max := none, min := none, nullable := none,
    column_type := ColumnType.INT, default := some "100", hint := none,
    layout := none }

/-- Claim C8 counterexample: the validator applies the default-length
check to the INT column `intBadDefaultArgs` and rejects it, so the check
is not restricted to string-like column types. -/
theorem c8_counter_default_length_on_int :
    intBadDefaultArgs.column_type = ColumnType.INT
    ∧ schemaDeclarationNew intBadDefaultArgs =
        Except.error "Schema default value cannot be longer than max-length!" :=
  ⟨rfl, rfl⟩

/-- Claim C8 (amended): past rules 1-3, acceptance is decided exactly by
the default-length conditions — for every column type, a literal default
must fit a configured (non-zero) `min_length`/`max_length` — and by
nothing else; in particular no numeric bound check of the default against
`min`/`max` is enforced for INT/REAL. -/
theorem c8_default_length_all_types (args : InventorySchemaAlterArgs)
    (h1 : (declOf args).min_length ≤ (declOf args).max_length)
    (h2 : (declOf args).min ≤ (declOf args).max)
    (h3 : ¬((declOf args).column_type = ColumnType.VARCHAR ∧
        (declOf args).max_length = 0)) :
    schemaDeclarationNew args = Except.ok (declOf args) ↔
      ((declOf args).default ≠ "NULL" →
        ((declOf args).max_length > 0 →
          strByteLen (declOf args).default ≤ (declOf args).max_length)
        ∧ ((declOf args).min_length > 0 →
          (declOf args).min_length ≤ strByteLen (declOf args).default)) := by
  simp only [schemaDeclarationNew]
  rw [if_neg (by omega), if_neg (by omega), if_neg h3]
  constructor
  · intro h
    split_ifs at h with h4 h5
    intro hnull
    constructor
    · intro hml
      by_contra hlen
      exact h4 ⟨hnull, hml, by omega⟩
    · intro hml
      by_contra hlen
      exact h5 ⟨hnull, hml, by omega⟩
  · intro h
    rw [if_neg, if_neg]
    · rintro ⟨hnull, hml, hlen⟩
      exact absurd ((h hnull).2 hml) (by omega)
    · rintro ⟨hnull, hml, hlen⟩
      exact absurd ((h hnull).1 hml) (by omega)

/-- An INT column with `min = 0`, `max = 100` and the numerically
out-of-range literal default `"500"` (no length bounds configured). -/
def intRangeFreeArgs : InventorySchemaAlterArgs :=
  { name := "qty", display_name := none, unique := false, max_length := none,
    min_length := none, max := some 100, min := some 0, nullable := none,
    column_type := ColumnType.INT, default := some "500", hint := none,
    layout := none }

theorem c8_default_length_all_types_w :
    schemaDeclarationNew intRangeFreeArgs = Except.ok (declOf intRangeFreeArgs) :=
  (c8_default_length_all_types intRangeFreeArgs (by decide) (by decide)
    (by decide)).mpr (by decide)

/-- The typed entry the notation parser produces for `qty=200`. -/
def qty200Entry : KeyValueTypeEntry :=
  { key := "qty", value := some "200", column_type := ColumnType.INT }

/-- The parameter collection `inventory_edit` receives for `--set qty=200`. -/
def qty200Params : KeyValueCollection :=
  { collection := [qty200Entry] }

/-- `demoRow` after the edit `qty=200` (the trigger touches `updated_at`). -/
def demoRowEdited : InventoryRow :=
  { id := 1, created_at := "t0", updated_at := "t2", deleted_at := none,
    fields := [("qty", some "200")] }

/-- Claim C2: the record pipeline parses supplied fields only through
`to_typed_key_value_entry`, which checks nothing beyond the name being
declared; the repository's value validator `check_against_declaration`
(which would reject both scenario inputs) has no caller.  Editing
`qty=200` against `qty : INT, min=0, max=100` therefore succeeds, mutates
the record and emits a record-ledger row, where the claim expects a
rejection before any write. -/
theorem c2_out_of_bounds_value_is_written :
    toTypedKeyValueEntry "qty=200" [qtyDecl] = Except.ok qty200Entry
    ∧ checkAgainstDeclaration "qty=200" [qtyDecl] =
        Except.error "Field is larger than schema max"
    ∧ (toTypedKeyValueEntry "sku=ABCDEFGHIJK" [skuDecl]).isOk = true
    ∧ checkAgainstDeclaration "sku=ABCDEFGHIJK" [skuDecl] =
        Except.error "Field length is more than schema max length"
    ∧ (inventoryEdit 1 qty200Params [qtyDecl] 1 "t2" demoState).2 = none
    ∧ (inventoryEdit 1 qty200Params [qtyDecl] 1 "t2" demoState).1.inventory_tx.length
        = demoState.inventory_tx.length + 1
    ∧ (inventoryEdit 1 qty200Params [qtyDecl] 1 "t2" demoState).1.inventory
        = [demoRowEdited] :=
  ⟨rfl, rfl, by decide, rfl, by decide, by decide, by decide⟩

/-- Claim C3: `Alter(decl)` on a name-unique collection replaces a
same-named declaration by deleting it and appending the new declaration at
the tail, and appends the new declaration when the name is fresh. -/
theorem c3_alter_collection (config : List SchemaDeclaration)
    (decl : SchemaDeclaration) :
    ((config.map (fun d => d.name)).Nodup →
      (∃ d ∈ config, d.name = decl.name) →
      schemaAlterCollection config decl =
        config.filter (fun e => e.name ≠ decl.name) ++ [decl])
    ∧ ((∀ d ∈ config, d.name ≠ decl.name) →
      schemaAlterCollection config decl = config ++ [decl]) := by
  constructor
  · intro hnd hex
    unfold schemaAlterCollection
    cases hpos : positionByName config decl.name with
    | none =>
        obtain ⟨d, hd, hdn⟩ := hex
        exact absurd hdn ((positionByName_none_iff config decl.name).mp hpos d hd)
    | some i =>
        dsimp only []
        rw [vecRemove_at_position config decl.name i hnd hpos]
  · intro hnone
    unfold schemaAlterCollection
    rw [(positionByName_none_iff config decl.name).mpr hnone]

/-- A second declaration named `qty` (an altered redefinition). -/
def qtyDecl2 : SchemaDeclaration :=
  { qtyDecl with max := 500, display_name := "Quantity" }

theorem c3_alter_collection_w :
    schemaAlterCollection [qtyDecl, skuDecl] qtyDecl2 = [skuDecl, qtyDecl2]
    ∧ schemaAlterCollection [skuDecl] qtyDecl2 = [skuDecl, qtyDecl2] := by
  constructor
  · have h := (c3_alter_collection [qtyDecl, skuDecl] qtyDecl2).1 (by decide)
      ⟨qtyDecl, by decide, by decide⟩
    rw [h]
    decide
  · have h := (c3_alter_collection [skuDecl] qtyDecl2).2 (by decide)
    rw [h]
    rfl

/-- Claim C1: if any statement of the `schema_alter`/`schema_remove`
migration transaction fails, the whole operation reports an error and the
observable database state — the record table, the schema ledger and the
persisted registry among it — is exactly the pre-operation state; and any
fault among the seven statements does make `schema_alter` fail. -/
theorem c1_schema_migration_atomic (faults : Nat → Bool)
    (config : List SchemaDeclaration) (decl : SchemaDeclaration) (nm : String)
    (userId : Nat) (now : String) (s : DBState) :
    ((schemaAlter faults config decl userId now s).2.2.isSome →
      (schemaAlter faults config decl userId now s).2.1 = s)
    ∧ ((∃ i, i ≤ 6 ∧ faults i = true) →
      (schemaAlter faults config decl userId now s).2.2.isSome)
    ∧ ((schemaRemove faults config nm userId now s).2.2.isSome →
      (schemaRemove faults config nm userId now s).2.1 = s) := by
  refine ⟨?_, ?_, ?_⟩
  · intro h
    exact runTx_err_state _ s h
  · intro hf
    obtain ⟨e, he⟩ := alterBody_error_of_fault faults
      (schemaAlterCollection config decl) config SchemaActionNo.Alter userId now s hf
    unfold schemaAlter runTx
    dsimp only []
    rw [he]
    rfl
  · intro h
    unfold schemaRemove at h ⊢
    cases hrc : schemaRemoveCollection config nm with
    | none => rfl
    | some new_schema =>
        rw [hrc] at h
        dsimp only [] at h ⊢
        exact runTx_err_state _ s h

theorem c1_schema_migration_atomic_w :
    (schemaAlter (fun _ => true) [qtyDecl] skuDecl 1 "t1" demoState).2.2.isSome = true
    ∧ (schemaAlter (fun _ => true) [qtyDecl] skuDecl 1 "t1" demoState).2.1 = demoState := by
  have h := c1_schema_migration_atomic (fun _ => true) [qtyDecl] skuDecl "qty" 1 "t1" demoState
  have hsome := h.2.1 ⟨0, by decide, rfl⟩
  exact ⟨hsome, h.1 hsome⟩

/-- Claim C5: `Remove(name)` with a name no declaration carries fails with
the not-found error before opening any transaction: the in-memory
collection and the whole persisted state (schema ledger, record table,
registry) are returned unchanged. -/
theorem c5_remove_unknown_name (faults : Nat → Bool)
    (config : List SchemaDeclaration) (nm : String) (userId : Nat)
    (now : String) (s : DBState)
    (h : ∀ d ∈ config, d.name ≠ nm) :
    schemaRemove faults config nm userId now s = (config, s, some DBError.notFound) := by
  unfold schemaRemove schemaRemoveCollection
  rw [(positionByName_none_iff config nm).mpr h]

theorem c5_remove_unknown_name_w :
    schemaRemove (fun _ => false) [qtyDecl] "color" 1 "t1" demoState
      = ([qtyDecl], demoState, some DBError.notFound) :=
  c5_remove_unknown_name (fun _ => false) [qtyDecl] "color" 1 "t1" demoState (by decide)

/-- Reading a column whose lookup succeeds. -/
theorem rowValue_of_lookup (r : InventoryRow) (c : String) (v : Option String)
    (h : fieldsLookup r.fields c = some v) : rowValue r c = v := by
  unfold rowValue
  rw [h]

/-- Claim C4: the migration's copy step projects exactly the copy-source
schema's columns — `old_schema`'s for `Alter` and `new_schema`'s for
`Remove`.  Consequently, on an `Alter` that adds a fresh column every old
column's value is preserved on every copied row and the new column starts
at its declared default (NULL when none); on a `Remove` every surviving
column's value is preserved and the dropped column is absent from the
copied rows. -/
theorem c4_copy_projection (old : List SchemaDeclaration)
    (decl : SchemaDeclaration) (nm : String) (new : List SchemaDeclaration)
    (now : String) (nid : Nat) (r : InventoryRow) :
    (copySourceCols SchemaActionNo.Alter new old = old.map (fun d => d.name)
      ∧ copySourceCols SchemaActionNo.Remove new old = new.map (fun d => d.name))
    ∧ ((old.map (fun d => d.name)).Nodup →
        decl.name ∉ old.map (fun d => d.name) →
        (∀ d ∈ old,
          rowValue (copyRow (old ++ [decl])
              (copySourceCols SchemaActionNo.Alter (old ++ [decl]) old) now nid r)
            d.name = rowValue r d.name)
        ∧ rowValue (copyRow (old ++ [decl])
              (copySourceCols SchemaActionNo.Alter (old ++ [decl]) old) now nid r)
            decl.name = columnDefault decl now)
    ∧ ((old.map (fun d => d.name)).Nodup →
        schemaRemoveCollection old nm = some new →
        (∀ d ∈ new,
          rowValue (copyRow new
              (copySourceCols SchemaActionNo.Remove new old) now nid r)
            d.name = rowValue r d.name)
        ∧ fieldsLookup (copyRow new
              (copySourceCols SchemaActionNo.Remove new old) now nid r).fields
            nm = none) := by
  refine ⟨⟨rfl, rfl⟩, ?_, ?_⟩
  · intro hnd hnm
    have hnd2 : ((old ++ [decl]).map (fun x => x.name)).Nodup := by
      rw [List.map_append]
      refine List.Nodup.append hnd (List.nodup_singleton _) ?_
      intro a ha hb
      rw [List.map_singleton, List.mem_singleton] at hb
      subst hb
      exact hnm ha
    have hcols : copySourceCols SchemaActionNo.Alter (old ++ [decl]) old
        = old.map (fun d => d.name) := rfl
    constructor
    · intro d hd
      have hdm : d ∈ old ++ [decl] := List.mem_append_left _ hd
      have hlk : fieldsLookup
          (copyRow (old ++ [decl]) (copySourceCols SchemaActionNo.Alter (old ++ [decl]) old) now nid r).fields
          d.name = some (if d.name ∈ copySourceCols SchemaActionNo.Alter (old ++ [decl]) old
            then rowValue r d.name else columnDefault d now) :=
        fieldsLookup_map_of_mem (old ++ [decl])
          (fun e => if e.name ∈ copySourceCols SchemaActionNo.Alter (old ++ [decl]) old
            then rowValue r e.name else columnDefault e now) d hnd2 hdm
      rw [rowValue_of_lookup _ _ _ hlk, if_pos (by rw [hcols]; exact List.mem_map_of_mem _ hd)]
    · have hdm : decl ∈ old ++ [decl] := List.mem_append_right _ (List.mem_singleton_self _)
      have hlk : fieldsLookup
          (copyRow (old ++ [decl]) (copySourceCols SchemaActionNo.Alter (old ++ [decl]) old) now nid r).fields
          decl.name = some (if decl.name ∈ copySourceCols SchemaActionNo.Alter (old ++ [decl]) old
            then rowValue r decl.name else columnDefault decl now) :=
        fieldsLookup_map_of_mem (old ++ [decl])
          (fun e => if e.name ∈ copySourceCols SchemaActionNo.Alter (old ++ [decl]) old
            then rowValue r e.name else columnDefault e now) decl hnd2 hdm
      rw [rowValue_of_lookup _ _ _ hlk, if_neg (by rw [hcols]; exact hnm)]
  · intro hnd hrem
    unfold schemaRemoveCollection at hrem
    cases hpos : positionByName old nm with
    | none => rw [hpos] at hrem; exact absurd hrem (by simp)
    | some i =>
        rw [hpos] at hrem
        have hnew : new = old.filter (fun e => e.name ≠ nm) := by
          have h2 := vecRemove_at_position old nm i hnd hpos
          have h3 : vecRemove old i = new := by simpa using hrem
          rw [← h3, h2]
        have hsub : List.Sublist (new.map (fun x => x.name)) (old.map (fun x => x.name)) := by
          rw [hnew]
          exact (List.filter_sublist old).map _
        have hnd3 : (new.map (fun x => x.name)).Nodup := hnd.sublist hsub
        have hmemold : ∀ d ∈ new, d ∈ old := by
          intro d hd
          rw [hnew] at hd
          exact (List.mem_filter.mp hd).1
        have hnmabs : nm ∉ new.map (fun x => x.name) := by
          intro hmem
          obtain ⟨d, hd, hdn⟩ := List.mem_map.mp hmem
          rw [hnew] at hd
          have := (List.mem_filter.mp hd).2
          simp [hdn] at this
        constructor
        · intro d hd
          have hlk : fieldsLookup
              (copyRow new (copySourceCols SchemaActionNo.Remove new old) now nid r).fields
              d.name = some (if d.name ∈ copySourceCols SchemaActionNo.Remove new old
                then rowValue r d.name else columnDefault d now) :=
            fieldsLookup_map_of_mem new
              (fun e => if e.name ∈ copySourceCols SchemaActionNo.Remove new old
                then rowValue r e.name else columnDefault e now) d hnd3 hd
          have hcolsR : copySourceCols SchemaActionNo.Remove new old
              = new.map (fun x => x.name) := rfl
          rw [rowValue_of_lookup _ _ _ hlk,
            if_pos (by rw [hcolsR]; exact List.mem_map_of_mem _ hd)]
        · exact fieldsLookup_map_of_not_mem new
            (fun e => if e.name ∈ copySourceCols SchemaActionNo.Remove new old
              then rowValue r e.name else columnDefault e now) nm hnmabs

theorem c4_copy_projection_w :
    rowValue (copyRow ([qtyDecl] ++ [skuDecl])
        (copySourceCols SchemaActionNo.Alter ([qtyDecl] ++ [skuDecl]) [qtyDecl])
        "t3" 1 demoRow) qtyDecl.name = rowValue demoRow qtyDecl.name
    ∧ rowValue (copyRow ([qtyDecl] ++ [skuDecl])
        (copySourceCols SchemaActionNo.Alter ([qtyDecl] ++ [skuDecl]) [qtyDecl])
        "t3" 1 demoRow) skuDecl.name = columnDefault skuDecl "t3"
    ∧ fieldsLookup (copyRow [qtyDecl]
        (copySourceCols SchemaActionNo.Remove [qtyDecl] [qtyDecl, skuDecl])
        "t3" 1 demoRow).fields "sku" = none := by
  have h1 := (c4_copy_projection [qtyDecl] skuDecl "sku" ([qtyDecl] ++ [skuDecl])
    "t3" 1 demoRow).2.1 (by decide) (by decide)
  have h2 := (c4_copy_projection [qtyDecl, skuDecl] skuDecl "sku" [qtyDecl]
    "t3" 1 demoRow).2.2 (by decide) (by decide)
  exact ⟨h1.1 qtyDecl (by decide), h1.2, h2.2⟩

/-- Claim C6: every successful record add, edit, or remove appends exactly
one record-ledger row and exactly one event-ledger row; list leaves the
whole state (so every ledger) untouched. -/
theorem c6_ledger_row_counts (params : KeyValueCollection)
    (config : List SchemaDeclaration) (userId : Nat) (now : String)
    (s : DBState) (identifier : Nat) (limit : Int) :
    ((inventoryAdd params config userId now s).2 = none →
      (inventoryAdd params config userId now s).1.inventory_tx.length
          = s.inventory_tx.length + 1
      ∧ (inventoryAdd params config userId now s).1.event_tx.length
          = s.event_tx.length + 1)
    ∧ ((inventoryEdit identifier params config userId now s).2 = none →
      (inventoryEdit identifier params config userId now s).1.inventory_tx.length
          = s.inventory_tx.length + 1
      ∧ (inventoryEdit identifier params config userId now s).1.event_tx.length
          = s.event_tx.length + 1)
    ∧ ((inventoryRemove identifier config userId now s).2 = none →
      (inventoryRemove identifier config userId now s).1.inventory_tx.length
          = s.inventory_tx.length + 1
      ∧ (inventoryRemove identifier config userId now s).1.event_tx.length
          = s.event_tx.length + 1)
    ∧ (inventoryList limit config s).1 = s := by
  refine ⟨?_, ?_, ?_, rfl⟩
  · intro h
    unfold inventoryAdd runTx at h ⊢
    cases hb : inventoryAddBody params config userId now s with
    | error e => rw [hb] at h; simp at h
    | ok s2 =>
        obtain ⟨latest, snap, _, htx, hev, _, _⟩ :=
          inventoryAddBody_ok params config userId now s s2 hb
        rw [htx, hev]
        simp
  · intro h
    unfold inventoryEdit runTx at h ⊢
    cases hb : inventoryEditBody identifier params config userId now s with
    | error e => rw [hb] at h; simp at h
    | ok s2 =>
        obtain ⟨latest, before_row, bi, ai, _, _, _, htx, hev, _, _⟩ :=
          inventoryEditBody_ok identifier params config userId now s s2 hb
        rw [htx, hev]
        simp
  · intro h
    unfold inventoryRemove runTx at h ⊢
    cases hb : inventoryRemoveBody identifier config userId now s with
    | error e => rw [hb] at h; simp at h
    | ok s2 =>
        obtain ⟨latest, before_row, bi, ai, _, _, _, htx, hev, _, _⟩ :=
          inventoryRemoveBody_ok identifier config userId now s s2 hb
        rw [htx, hev]
        simp

theorem c6_ledger_row_counts_w :
    (inventoryAdd qty200Params [qtyDecl] 1 "t4" demoState).1.inventory_tx.length
        = demoState.inventory_tx.length + 1
    ∧ (inventoryAdd qty200Params [qtyDecl] 1 "t4" demoState).1.event_tx.length
        = demoState.event_tx.length + 1
    ∧ (inventoryRemove 1 [qtyDecl] 1 "t4" demoState).1.inventory_tx.length
        = demoState.inventory_tx.length + 1
    ∧ (inventoryList (-1) [qtyDecl] demoState).1 = demoState := by
  have h := c6_ledger_row_counts qty200Params [qtyDecl] 1 "t4" demoState 1 (-1)
  exact ⟨(h.1 (by decide)).1, (h.1 (by decide)).2, (h.2.2.1 (by decide)).1, h.2.2.2⟩

/-- The latest-schema query succeeds exactly with the `MAX(id)` value. -/
theorem latestSchemaId_ok_iff (s : DBState) (m : Nat) :
    latestSchemaId s = Except.ok m ↔
      maxId (s.schema_tx.map (fun r => r.id)) = some m := by
  unfold latestSchemaId
  cases h : maxId (s.schema_tx.map (fun r => r.id)) <;> simp

/-- Claim C9: the record-ledger row a successful add, edit, or remove
appends carries as its `schema_id` the maximal schema-ledger id at the
time of the mutation. -/
theorem c9_record_ledger_schema_id (params : KeyValueCollection)
    (config : List SchemaDeclaration) (userId : Nat) (now : String)
    (s : DBState) (identifier : Nat) :
    ((inventoryAdd params config userId now s).2 = none →
      ((inventoryAdd params config userId now s).1.inventory_tx.getLast?).map
          (fun t => t.schema_id) = maxId (s.schema_tx.map (fun t => t.id)))
    ∧ ((inventoryEdit identifier params config userId now s).2 = none →
      ((inventoryEdit identifier params config userId now s).1.inventory_tx.getLast?).map
          (fun t => t.schema_id) = maxId (s.schema_tx.map (fun t => t.id)))
    ∧ ((inventoryRemove identifier config userId now s).2 = none →
      ((inventoryRemove identifier config userId now s).1.inventory_tx.getLast?).map
          (fun t => t.schema_id) = maxId (s.schema_tx.map (fun t => t.id)))
    := by
  refine ⟨?_, ?_, ?_⟩
  · intro h
    unfold inventoryAdd runTx at h ⊢
    cases hb : inventoryAddBody params config userId now s with
    | error e => rw [hb] at h; simp at h
    | ok s2 =>
        obtain ⟨latest, snap, hlatest, htx, _, _, _⟩ :=
          inventoryAddBody_ok params config userId now s s2 hb
        rw [htx, List.getLast?_concat, (latestSchemaId_ok_iff s latest).mp hlatest]
        rfl
  · intro h
    unfold inventoryEdit runTx at h ⊢
    cases hb : inventoryEditBody identifier params config userId now s with
    | error e => rw [hb] at h; simp at h
    | ok s2 =>
        obtain ⟨latest, before_row, bi, ai, _, hlatest, _, htx, _, _, _⟩ :=
          inventoryEditBody_ok identifier params config userId now s s2 hb
        rw [htx, List.getLast?_concat, (latestSchemaId_ok_iff s latest).mp hlatest]
        rfl
  · intro h
    unfold inventoryRemove runTx at h ⊢
    cases hb : inventoryRemoveBody identifier config userId now s with
    | error e => rw [hb] at h; simp at h
    | ok s2 =>
        obtain ⟨latest, before_row, bi, ai, _, hlatest, _, htx, _, _, _⟩ :=
          inventoryRemoveBody_ok identifier config userId now s s2 hb
        rw [htx, List.getLast?_concat, (latestSchemaId_ok_iff s latest).mp hlatest]
        rfl

theorem c9_record_ledger_schema_id_w :
    ((inventoryAdd qty200Params [qtyDecl] 1 "t4" demoState).1.inventory_tx.getLast?).map
        (fun t => t.schema_id) = maxId (demoState.schema_tx.map (fun t => t.id)) :=
  (c9_record_ledger_schema_id qty200Params [qtyDecl] 1 "t4" demoState 1).1 (by decide)

/-- Claim C10: removing a record whose `deleted_at` is already set leaves
the stored row (and the whole record table) unchanged — the `WHERE
deleted_at IS NULL` guard matches nothing, so the timestamp is not
overwritten — yet the operation succeeds and still appends one `Delete`
record-ledger row whose after-snapshot equals its before-snapshot, plus
one event-ledger row. -/
theorem c10_remove_already_deleted (config : List SchemaDeclaration)
    (userId : Nat) (now t : String) (s : DBState) (identifier : Nat)
    (r : InventoryRow) (snap : KeyValueCollection)
    (hids : (s.inventory.map (fun x => x.id)).Nodup)
    (hfind : findRow s identifier = some r)
    (hdel : r.deleted_at = some t)
    (hsnap : rowToTypedKeyValueDecls config r = Except.ok snap)
    (htx : s.schema_tx ≠ []) :
    (inventoryRemove identifier config userId now s).2 = none
    ∧ (inventoryRemove identifier config userId now s).1.inventory = s.inventory
    ∧ (inventoryRemove identifier config userId now s).1.inventory_tx.length
        = s.inventory_tx.length + 1
    ∧ (inventoryRemove identifier config userId now s).1.event_tx.length
        = s.event_tx.length + 1
    ∧ ∃ tx, (inventoryRemove identifier config userId now s).1.inventory_tx.getLast?
          = some tx
        ∧ tx.action_no = DBOpNo.Delete ∧ tx.from_val = some tx.to_val := by
  have hpt : ∀ x ∈ s.inventory, applyRemoveRow identifier now x = x := by
    intro x hx
    unfold applyRemoveRow
    by_cases hxid : x.id = identifier
    · have hxr : x = r := findRow_unique s.inventory identifier r hids hfind x hx hxid
      rw [if_neg]
      rintro ⟨h1, h2⟩
      rw [hxr, hdel] at h2
      exact absurd h2 (by simp)
    · rw [if_neg]
      rintro ⟨h1, h2⟩
      exact hxid h1
  have hmap : s.inventory.map (applyRemoveRow identifier now) = s.inventory :=
    map_fix _ _ hpt
  have hs1 : { s with inventory := s.inventory.map (applyRemoveRow identifier now) } = s := by
    rw [hmap]
  obtain ⟨m, hm⟩ := latestSchemaId_ok_of_ne_nil s htx
  have hbody : inventoryRemoveBody identifier config userId now s = Except.ok
      { s with
        inventory_tx := s.inventory_tx ++
          [{ id := s.inventory_tx_next_id, dispatcher := userId, schema_id := m,
             inventory_id := r.id, action_no := DBOpNo.Delete,
             from_val := some (kvToJson snap), to_val := kvToJson snap }],
        inventory_tx_next_id := s.inventory_tx_next_id + 1,
        event_tx := s.event_tx ++
          [{ id := s.event_tx_next_id, action_no := EventActionNo.InventoryRemove,
             dispatcher := userId, target := s.inventory_tx_next_id }],
        event_tx_next_id := s.event_tx_next_id + 1 } := by
    unfold inventoryRemoveBody
    rw [hfind]
    dsimp only []
    rw [hsnap]
    dsimp only []
    rw [hs1, hfind]
    dsimp only []
    rw [hsnap]
    dsimp only []
    rw [hm]
    dsimp only []
    rw [hmap]
  have hres : inventoryRemove identifier config userId now s
      = ({ s with
          inventory_tx := s.inventory_tx ++
            [{ id := s.inventory_tx_next_id, dispatcher := userId, schema_id := m,
               inventory_id := r.id, action_no := DBOpNo.Delete,
               from_val := some (kvToJson snap), to_val := kvToJson snap }],
          inventory_tx_next_id := s.inventory_tx_next_id + 1,
          event_tx := s.event_tx ++
            [{ id := s.event_tx_next_id, action_no := EventActionNo.InventoryRemove,
               dispatcher := userId, target := s.inventory_tx_next_id }],
          event_tx_next_id := s.event_tx_next_id + 1 }, none) := by
    unfold inventoryRemove runTx
    rw [hbody]
  rw [hres]
  refine ⟨rfl, rfl, by simp, by simp,
    ⟨{ id := s.inventory_tx_next_id, dispatcher := userId, schema_id := m,
       inventory_id := r.id, action_no := DBOpNo.Delete,
       from_val := some (kvToJson snap), to_val := kvToJson snap },
     by simp, rfl, rfl⟩⟩

/-- The declared-columns snapshot of `demoDeletedRow`. -/
def demoSnap : KeyValueCollection :=
  { collection := [{ key := "qty", value := some "5", column_type := ColumnType.INT }] }

theorem c10_remove_already_deleted_w :
    (inventoryRemove 1 [qtyDecl] 1 "t4" demoDeletedState).2 = none
    ∧ (inventoryRemove 1 [qtyDecl] 1 "t4" demoDeletedState).1.inventory
        = demoDeletedState.inventory := by
  have h := c10_remove_already_deleted [qtyDecl] 1 "t4" "t1" demoDeletedState 1
    demoDeletedRow demoSnap (by decide) rfl rfl rfl (by decide)
  exact ⟨h.1, h.2.1⟩
